import Mathlib

/-!
Verification of the telegoy media uploader against its design document.

The whole program lives in src/main.rs.  This file gives a shallow
embedding of its core pipeline: extension-based classification, caption
composition (sidecar text plus a static suffix), video metadata probing
(ffprobe), thumbnail generation (ffmpeg frame extraction, decode, resize,
JPEG re-encode, temp-file cleanup) and the assembly of the media group
that is sent with a single send_media_group call.

External effects (process spawns, file reads, the network send) are
modelled by explicit outcome parameters: a theorem quantifying over them
covers every behaviour of the environment.  Strings are processed over
their underlying character lists so that all definitions evaluate by
kernel reduction.  The floating-point value parsed from the duration
probe is modelled as a rational number; the only operations the program
applies to it are a comparison with zero and round-half-away-from-zero,
both of which ℚ models exactly for every representable double.
-/

namespace Telegoy

/-- A file path, modelled as the file stem together with the optional
extension as returned by the standard path API (none when the file name
has no dot-separated extension). -/
structure FPath where
  stem : String
  ext : Option String
  deriving DecidableEq

/-- Rust's path.with_extension: replace (or add) the extension. -/
def FPath.withExtension (p : FPath) (e : String) : FPath :=
  ⟨p.stem, some e⟩

/-- Lowercasing of a string, character by character (str::to_lowercase;
extensions are ASCII, where the two agree). -/
def lowerStr (s : String) : String :=
  ⟨s.data.map Char.toLower⟩

/-- Leading and trailing whitespace removal on a character list. -/
def trimChars (l : List Char) : List Char :=
  ((l.dropWhile Char.isWhitespace).reverse.dropWhile Char.isWhitespace).reverse

/-- Rust str::trim. -/
def trimStr (s : String) : String :=
  ⟨trimChars s.data⟩

/-- Decimal digit value of a character, none for a non-digit. -/
def digitVal (c : Char) : Option Nat :=
  if 48 ≤ c.toNat ∧ c.toNat ≤ 57 then some (c.toNat - 48) else none

/-- Left fold of decimal digits; none as soon as a non-digit appears. -/
def parseDigits : List Char → Nat → Option Nat
  | [], acc => some acc
  | c :: rest, acc =>
    match digitVal c with
    | some d => parseDigits rest (acc * 10 + d)
    | none => none

/-- Removal of one optional leading plus sign, as Rust integer parsing
accepts it. -/
def stripPlus : List Char → List Char
  | '+' :: rest => rest
  | l => l

/-- Rust str::parse::<u16>: an optional leading plus sign, then one or
more decimal digits, value at most 65535; anything else is an error. -/
def rustParseU16 (s : String) : Option Nat :=
  match stripPlus s.data with
  | [] => none
  | t =>
    match parseDigits t 0 with
    | some m => if m ≤ 65535 then some m else none
    | none => none

/-- The lowercased extension of a path, the empty string when the path
has none (main.rs lines 233-237). -/
def extLower (p : FPath) : String :=
  (p.ext.map lowerStr).getD ""

/-- The image extension set (main.rs line 239). -/
def imageExts : List String := ["jpg", "jpeg", "png", "webp"]

/-- The video extension set (main.rs line 240). -/
def videoExts : List String := ["mp4", "mov", "avi", "mkv"]

/-- get_caption (main.rs lines 170-175): read the sidecar file
path.with_extension("txt"); unwrap_or_default turns any read failure
into the empty string.  The readFile argument models the file system:
it yields the contents of a readable file and none otherwise. -/
def get_caption (readFile : FPath → Option String) (p : FPath) : String :=
  (readFile (p.withExtension "txt")).getD ""

/-- Caption composition as the specification words it: sidecar contents
followed by the CONTENTS of the static-caption file.  Stated from the
spec for comparison with the composition the code performs. -/
def spec_full_caption (readFile : FPath → Option String)
    (staticFileContents : String) (p : FPath) : String :=
  get_caption readFile p ++ staticFileContents

/-- The static caption suffix exactly as main computes it (main.rs lines
225-227): args.static_caption_path.unwrap_or("static_caption.txt") — the
configured PATH string itself; the program never reads that file (its
get_static_caption helper is commented out). -/
def static_cap (static_caption_path : Option String) : String :=
  static_caption_path.getD "static_caption.txt"

/-- An in-memory input file: a byte buffer plus its synthetic name
(InputFile::memory(bytes).file_name("thumb.jpg")). -/
structure Thumb where
  bytes : List Nat
  name : String
  deriving DecidableEq

/-- Outcomes of the external and library calls generate_thumbnail makes,
one record per invocation.  ffmpegStatus is none on a spawn error and
some s when the process ran with success flag s; ffmpegCreatesTemp says
whether the process left the temp frame file on disk; openOk and
decodeOk are the ImageReader::open and decode results; encodeWritten is
whatever the JPEG encoder wrote into the byte buffer, and encodeOk is
the Result value of write_with_encoder — which the code discards with
.ok(). -/
structure ThumbEnv where
  ffmpegStatus : Option Bool
  ffmpegCreatesTemp : Bool
  openOk : Bool
  decodeOk : Bool
  encodeWritten : List Nat
  encodeOk : Bool
  deriving DecidableEq

/-- generate_thumbnail (main.rs lines 48-96), as a function of the stage
outcomes, the unique temp file name and the file-system state (the list
of existing files).  Returns the optional thumbnail and the resulting
file-system state.  Mirrors the source: success is
status().ok().map_or(false, s.success); on success the frame is opened,
decoded and re-encoded, the encoder's Result being discarded so that the
buffer is returned as written; the temp file is removed unconditionally
before returning. -/
def generate_thumbnail (env : ThumbEnv) (temp : String) (fs : List String) :
    Option Thumb × List String :=
  let fs1 := if env.ffmpegCreatesTemp then temp :: fs else fs
  let success := env.ffmpegStatus.getD false
  let bytes_opt : Option (List Nat) :=
    if success then
      if env.openOk && env.decodeOk then some env.encodeWritten else none
    else none
  let fs2 := fs1.filter (fun f => f != temp)
  (bytes_opt.map (fun b => ⟨b, "thumb.jpg"⟩), fs2)

/-- Captured outcome of the dimensions probe (first ffprobe call in
main.rs lines 105-137): the exit-status success flag and the lines of
the captured standard output. -/
structure ProbeDim where
  statusSuccess : Bool
  lines : List String
  deriving DecidableEq

/-- Captured outcome of the duration probe (second ffprobe call in
main.rs lines 140-162): the exit-status success flag and the result of
trim().parse::<f64>() on the captured standard output, modelled as an
optional rational (none when unparsable). -/
structure ProbeDur where
  statusSuccess : Bool
  parsed : Option ℚ
  deriving DecidableEq

/-- Rust f64::round restricted to positive inputs: round half away from
zero, here floor (q + 1/2). -/
def rustRoundPos (q : ℚ) : Nat :=
  (⌊q + 1/2⌋).toNat

/-- The keep-only-if-positive filter applied to a parsed dimension
(main.rs lines 124 and 131: the value is stored only when it exceeds
zero). -/
def keepPos (n : Nat) : Option Nat :=
  if 0 < n then some n else none

/-- Parsing of one stdout line of the dimensions probe: trim, parse as
u16, keep only a positive value (main.rs lines 122-135). -/
def parseDimLine (l : Option String) : Option Nat :=
  match l with
  | none => none
  | some s => (rustParseU16 (trimStr s)).bind keepPos

/-- The width field of get_video_metadata: first line of the dimensions
probe output, when that probe spawned and exited successfully. -/
def gvm_width (dim : Option ProbeDim) : Option Nat :=
  match dim with
  | none => none
  | some o => if o.statusSuccess then parseDimLine o.lines.head? else none

/-- The height field of get_video_metadata: second line of the same
dimensions probe output. -/
def gvm_height (dim : Option ProbeDim) : Option Nat :=
  match dim with
  | none => none
  | some o => if o.statusSuccess then parseDimLine (o.lines.drop 1).head? else none

/-- The duration filter (main.rs lines 153-160): the parsed float is
kept if strictly positive BEFORE rounding, then rounded and
saturating-cast to u16 (the "as u16" cast). -/
def keepPosDur (q : ℚ) : Option Nat :=
  if 0 < q then some (min (rustRoundPos q) 65535) else none

/-- The duration field of get_video_metadata: the duration probe output,
when that probe spawned and exited successfully. -/
def gvm_duration (dur : Option ProbeDur) : Option Nat :=
  match dur with
  | none => none
  | some o => if o.statusSuccess then o.parsed.bind keepPosDur else none

/-- get_video_metadata (main.rs lines 98-168) as a function of the two
probe outcomes (none models a spawn error of the corresponding call).
Width and height come from the first probe, duration from the second;
any failure leaves the corresponding field at its initial None. -/
def get_video_metadata (dim : Option ProbeDim) (dur : Option ProbeDur) :
    Option Nat × Option Nat × Option Nat :=
  (gvm_width dim, gvm_height dim, gvm_duration dur)

/-- The teloxide InputMedia variants, restricted to the fields this
program ever sets.  The library offers all five kinds; the program only
ever constructs the first two. -/
inductive InputMedia where
  | photo (file : FPath) (caption : Option String)
  | video (file : FPath) (caption : Option String) (supportsStreaming : Bool)
      (thumbnail : Option Thumb) (width : Option Nat) (height : Option Nat)
      (duration : Option Nat)
  | document (file : FPath) (caption : Option String)
  | audio (file : FPath) (caption : Option String)
  | animation (file : FPath) (caption : Option String)
  deriving DecidableEq

/-- The caption field of a media item. -/
def captionOf : InputMedia → Option String
  | .photo _ c => c
  | .video _ c _ _ _ _ _ => c
  | .document _ c => c
  | .audio _ c => c
  | .animation _ c => c

/-- Whether a media item is a Photo or a Video request. -/
def isPhotoOrVideo : InputMedia → Bool
  | .photo _ _ => true
  | .video _ _ _ _ _ _ _ => true
  | _ => false

/-- The supports_streaming flag of a media item; vacuously true for the
kinds that carry no such flag. -/
def streamOk : InputMedia → Bool
  | .video _ _ ss _ _ _ _ => ss
  | _ => true

/-- One input path together with the outcomes of the external calls the
program makes for it (the thumbnail stage outcomes, the unique temp file
name, and the two probe outcomes; all used only when the file classifies
as a video). -/
structure PathInput where
  path : FPath
  temp : String
  thumbEnv : ThumbEnv
  probeDim : Option ProbeDim
  probeDur : Option ProbeDur
  deriving DecidableEq

/-- One iteration of the file loop of main (main.rs lines 230-283):
classify by lowercased extension, compose file_caption plus the static
suffix, build the media item — attaching the caption only when the
accumulated group is still empty — and push it; a path matching neither
extension set is skipped.  The Option part of generate_thumbnail does
not depend on the file-system argument, so the loop reads it off the
empty state. -/
def processFile (readFile : FPath → Option String) (scap : String)
    (group : List InputMedia) (inp : PathInput) : List InputMedia :=
  let ext := extLower inp.path
  let is_image := imageExts.contains ext
  let is_video := videoExts.contains ext
  let file_caption := get_caption readFile inp.path
  let full_caption := file_caption ++ scap
  if is_image then
    group ++ [.photo inp.path (if group.isEmpty then some full_caption else none)]
  else if is_video then
    let thumbnail := (generate_thumbnail inp.thumbEnv inp.temp []).1
    let md := get_video_metadata inp.probeDim inp.probeDur
    group ++ [.video inp.path (if group.isEmpty then some full_caption else none)
      true thumbnail md.1 md.2.1 md.2.2]
  else
    group

/-- The media group main assembles from its file list. -/
def buildGroup (readFile : FPath → Option String) (scap : String)
    (files : List PathInput) : List InputMedia :=
  files.foldl (processFile readFile scap) []

/-- Outcome of a run: either the empty-group early return (which logs
"No valid media found to send.") or the single send_media_group call,
tagged with the group that was sent and the network outcome. -/
inductive RunOutcome where
  | noValidMedia
  | sent (group : List InputMedia) (ok : Bool)
  deriving DecidableEq

/-- Number of send calls a run outcome issued. -/
def sendCalls : RunOutcome → Nat
  | .noValidMedia => 0
  | .sent _ _ => 1

/-- Whether the run reported the no-valid-media error. -/
def reportsNoValidMedia : RunOutcome → Bool
  | .noValidMedia => true
  | .sent _ _ => false

/-- main after configuration (main.rs lines 224-296): compute the static
caption suffix, fold the per-file loop over the argument list, then
either return early on an empty group or issue the one atomic
send_media_group call, whose network outcome is sendOk. -/
def main_run (readFile : FPath → Option String)
    (static_caption_path : Option String) (files : List PathInput)
    (sendOk : Bool) : RunOutcome :=
  let scap := static_cap static_caption_path
  let group := buildGroup readFile scap files
  if group.isEmpty then .noValidMedia else .sent group sendOk

/-- A parsed u16 is at most 65535. -/
theorem rustParseU16_le (s : String) (n : Nat) (h : rustParseU16 s = some n) :
    n ≤ 65535 := by
  unfold rustParseU16 at h
  split at h
  · cases h
  · split at h
    · split at h
      · injection h with h2
        omega
      · cases h
    · cases h

/-- Characterization of keepPos. -/
theorem keepPos_eq_some (n w : Nat) : keepPos n = some w ↔ n = w ∧ 0 < w := by
  unfold keepPos
  by_cases h : 0 < n
  · rw [if_pos h]
    constructor
    · intro e
      injection e with e2
      subst e2
      exact ⟨rfl, h⟩
    · rintro ⟨rfl, _⟩
      rfl
  · rw [if_neg h]
    constructor
    · intro e
      cases e
    · rintro ⟨rfl, hw⟩
      exact absurd hw h

/-- Characterization of parseDimLine. -/
theorem parseDimLine_eq_some (l : Option String) (w : Nat) :
    parseDimLine l = some w ↔
      ∃ s, l = some s ∧ rustParseU16 (trimStr s) = some w ∧ 0 < w := by
  rcases l with _ | s
  · simp [parseDimLine]
  · constructor
    · intro h
      have h2 : (rustParseU16 (trimStr s)).bind keepPos = some w := h
      rcases hp : rustParseU16 (trimStr s) with _ | n
      · rw [hp] at h2
        cases h2
      · rw [hp] at h2
        obtain ⟨hnw, hpos⟩ := (keepPos_eq_some n w).mp h2
        subst hnw
        exact ⟨s, rfl, hp, hpos⟩
    · rintro ⟨s2, hs2, hp, hpos⟩
      injection hs2 with hs3
      subst hs3
      show (rustParseU16 (trimStr s)).bind keepPos = some w
      rw [hp]
      exact (keepPos_eq_some _ _).mpr ⟨rfl, hpos⟩

/-- Characterization of the width field of get_video_metadata. -/
theorem gvm_width_eq_some (dim : Option ProbeDim) (w : Nat) :
    gvm_width dim = some w ↔
      ∃ o s, dim = some o ∧ o.statusSuccess = true ∧ o.lines.head? = some s ∧
        rustParseU16 (trimStr s) = some w ∧ 0 < w := by
  rcases dim with _ | o
  · simp [gvm_width]
  · by_cases hs : o.statusSuccess = true
    · simp [gvm_width, hs, parseDimLine_eq_some]
    · simp [gvm_width, hs]

/-- Characterization of the height field of get_video_metadata. -/
theorem gvm_height_eq_some (dim : Option ProbeDim) (h : Nat) :
    gvm_height dim = some h ↔
      ∃ o s, dim = some o ∧ o.statusSuccess = true ∧
        (o.lines.drop 1).head? = some s ∧
        rustParseU16 (trimStr s) = some h ∧ 0 < h := by
  rcases dim with _ | o
  · simp [gvm_height]
  · by_cases hs : o.statusSuccess = true
    · simp [gvm_height, hs, parseDimLine_eq_some]
    · simp [gvm_height, hs]

/-- Characterization of keepPosDur. -/
theorem keepPosDur_eq_some (q : ℚ) (d : Nat) :
    keepPosDur q = some d ↔ 0 < q ∧ d = min (rustRoundPos q) 65535 := by
  unfold keepPosDur
  by_cases h : 0 < q
  · rw [if_pos h]
    constructor
    · intro e
      injection e with e2
      exact ⟨h, e2.symm⟩
    · rintro ⟨_, rfl⟩
      rfl
  · rw [if_neg h]
    constructor
    · intro e
      cases e
    · rintro ⟨hq, _⟩
      exact absurd hq h

/-- Characterization of the duration field of get_video_metadata. -/
theorem gvm_duration_eq_some (dur : Option ProbeDur) (d : Nat) :
    gvm_duration dur = some d ↔
      ∃ o q, dur = some o ∧ o.statusSuccess = true ∧ o.parsed = some q ∧
        0 < q ∧ d = min (rustRoundPos q) 65535 := by
  rcases dur with _ | o
  · simp [gvm_duration]
  · by_cases hs : o.statusSuccess = true
    · rcases hq : o.parsed with _ | q
      · simp [gvm_duration, hs, hq]
      · simp [gvm_duration, hs, hq, keepPosDur_eq_some]
    · simp [gvm_duration, hs]

/-- The first component of get_video_metadata is the width field. -/
theorem gvm_fst (dim : Option ProbeDim) (dur : Option ProbeDur) :
    (get_video_metadata dim dur).1 = gvm_width dim := rfl

/-- The second component of get_video_metadata is the height field. -/
theorem gvm_snd (dim : Option ProbeDim) (dur : Option ProbeDur) :
    (get_video_metadata dim dur).2.1 = gvm_height dim := rfl

/-- The third component of get_video_metadata is the duration field. -/
theorem gvm_thd (dim : Option ProbeDim) (dur : Option ProbeDur) :
    (get_video_metadata dim dur).2.2 = gvm_duration dur := rfl

/-- A path matching neither extension set leaves the group unchanged. -/
theorem processFile_skip (rf : FPath → Option String) (scap : String)
    (g : List InputMedia) (inp : PathInput)
    (h1 : imageExts.contains (extLower inp.path) = false)
    (h2 : videoExts.contains (extLower inp.path) = false) :
    processFile rf scap g inp = g := by
  have h1' : extLower inp.path ∉ imageExts := by simpa using h1
  have h2' : extLower inp.path ∉ videoExts := by simpa using h2
  simp [processFile, h1', h2']

/-- One loop iteration either skips the file or appends exactly one item
to the group; the appended item is a Photo or a Video, has its streaming
flag (when present) set, and carries the composed caption exactly when
the group was empty before the push. -/
theorem processFile_shape (rf : FPath → Option String) (scap : String)
    (g : List InputMedia) (inp : PathInput) :
    processFile rf scap g inp = g ∨
    ∃ m, processFile rf scap g inp = g ++ [m] ∧
      isPhotoOrVideo m = true ∧ streamOk m = true ∧
      captionOf m =
        (if g.isEmpty then some (get_caption rf inp.path ++ scap) else none) := by
  by_cases hi : extLower inp.path ∈ imageExts
  · refine Or.inr ⟨InputMedia.photo inp.path
      (if g.isEmpty then some (get_caption rf inp.path ++ scap) else none),
      ?_, rfl, rfl, rfl⟩
    simp [processFile, hi]
  · by_cases hv : extLower inp.path ∈ videoExts
    · refine Or.inr ⟨InputMedia.video inp.path
        (if g.isEmpty then some (get_caption rf inp.path ++ scap) else none) true
        (generate_thumbnail inp.thumbEnv inp.temp []).1
        (get_video_metadata inp.probeDim inp.probeDur).1
        (get_video_metadata inp.probeDim inp.probeDur).2.1
        (get_video_metadata inp.probeDim inp.probeDur).2.2,
        ?_, rfl, rfl, rfl⟩
      simp [processFile, hi, hv]
    · exact Or.inl (processFile_skip rf scap g inp
        (by simpa using hi) (by simpa using hv))

/-- Any member of the folded group is a member of the start group or a
Photo-or-Video item with its streaming flag set. -/
theorem mem_foldl_shape (rf : FPath → Option String) (scap : String) :
    ∀ (files : List PathInput) (g : List InputMedia) (m : InputMedia),
      m ∈ files.foldl (processFile rf scap) g →
      m ∈ g ∨ (isPhotoOrVideo m = true ∧ streamOk m = true) := by
  intro files
  induction files with
  | nil =>
    intro g m hm
    exact Or.inl hm
  | cons inp rest ih =>
    intro g m hm
    rw [List.foldl_cons] at hm
    rcases ih (processFile rf scap g inp) m hm with hg | hgood
    · rcases processFile_shape rf scap g inp with heq | ⟨m0, heq, hpv, hst, _⟩
      · rw [heq] at hg
        exact Or.inl hg
      · rw [heq] at hg
        rcases List.mem_append.mp hg with hmem | hmem
        · exact Or.inl hmem
        · have hm0 := List.mem_singleton.mp hmem
          subst hm0
          exact Or.inr ⟨hpv, hst⟩
    · exact Or.inr hgood

/-- The invariant maintained by the caption logic: the head of the group
carries a caption, every later item does not. -/
def goodGroup : List InputMedia → Prop
  | [] => True
  | a :: t => (captionOf a).isSome = true ∧ ∀ m ∈ t, captionOf m = none

/-- One loop iteration preserves the caption invariant. -/
theorem processFile_good (rf : FPath → Option String) (scap : String)
    (g : List InputMedia) (inp : PathInput) (hg : goodGroup g) :
    goodGroup (processFile rf scap g inp) := by
  rcases processFile_shape rf scap g inp with heq | ⟨m0, heq, _, _, hcap⟩
  · rw [heq]
    exact hg
  · rw [heq]
    cases g with
    | nil =>
      simp only [List.isEmpty_nil, if_true] at hcap
      refine ⟨?_, ?_⟩
      · show (captionOf m0).isSome = true
        rw [hcap]
        rfl
      · intro m hm
        simp at hm
    | cons a t =>
      simp at hcap
      refine ⟨hg.1, ?_⟩
      intro m hm
      rcases List.mem_append.mp hm with hmem | hmem
      · exact hg.2 m hmem
      · have hm0 := List.mem_singleton.mp hmem
        subst hm0
        exact hcap

/-- The fold preserves the caption invariant. -/
theorem foldl_good (rf : FPath → Option String) (scap : String) :
    ∀ (files : List PathInput) (g : List InputMedia), goodGroup g →
      goodGroup (files.foldl (processFile rf scap) g) := by
  intro files
  induction files with
  | nil =>
    intro g hg
    exact hg
  | cons inp rest ih =>
    intro g hg
    rw [List.foldl_cons]
    exact ih _ (processFile_good rf scap g inp hg)

/-- A batch with no classifiable file folds to the unchanged group. -/
theorem foldl_skip (rf : FPath → Option String) (scap : String) :
    ∀ (files : List PathInput),
      (∀ inp ∈ files, imageExts.contains (extLower inp.path) = false ∧
        videoExts.contains (extLower inp.path) = false) →
      ∀ g, files.foldl (processFile rf scap) g = g := by
  intro files
  induction files with
  | nil =>
    intro _ g
    rfl
  | cons inp rest ih =>
    intro h g
    have h1 := h inp (List.mem_cons_self inp rest)
    rw [List.foldl_cons, processFile_skip rf scap g inp h1.1 h1.2]
    exact ih (fun i hi => h i (List.mem_cons_of_mem _ hi)) g

/-- File system of the C1 failing input: the sidecar b.txt holds the
text "hello " and the static-caption file static_caption.txt holds the
text "#batch"; nothing else is readable. -/
def c1fs : FPath → Option String := fun p =>
  if p = ⟨"b", some "txt"⟩ then some "hello "
  else if p = ⟨"static_caption", some "txt"⟩ then some "#batch" else none

/-- The single input file b.mp4 of the C1 failing input. -/
def c1input : PathInput :=
  ⟨⟨"b", some "mp4"⟩, "temp_thumb_0.jpg", ⟨none, false, false, false, [], false⟩,
    none, none⟩

/-- C1: at the failing input — files = b.mp4, sidecar b.txt containing
"hello ", static_caption.txt containing "#batch", no CLI override — the
caption the code attaches is "hello static_caption.txt": the sidecar
text followed by the configured PATH string, not by the static file
contents as the claim (and the commented-out get_static_caption reader)
prescribes, which would give "hello #batch". -/
theorem C1_static_caption_path_is_appended :
    (buildGroup c1fs (static_cap none) [c1input]).map captionOf =
      [some "hello static_caption.txt"] ∧
    (("hello static_caption.txt" ==
      spec_full_caption c1fs "#batch" c1input.path) = false) := by
  constructor
  · decide
  · decide

/-- C3 counterexample: a successful duration probe parsing to the value
3/10 — strictly positive, so it is kept — makes get_video_metadata
return duration some 0, which is not a positive integer: the positivity
guard is applied before the rounding, not to the rounded value. -/
theorem C3_counterexample :
    get_video_metadata none (some ⟨true, some (3/10)⟩) = (none, none, some 0) ∧
    (0 : ℚ) < 3/10 := by
  have h1 : (0:ℚ) < 3/10 := by norm_num
  have h2 : rustRoundPos (3/10) = 0 := by
    unfold rustRoundPos
    rw [show (3:ℚ)/10 + 1/2 = 4/5 by norm_num]
    rw [show ⌊(4:ℚ)/5⌋ = 0 from by rw [Int.floor_eq_iff]; norm_num]
    rfl
  refine ⟨?_, h1⟩
  have h3 : gvm_duration (some ⟨true, some (3/10)⟩) = some 0 := by
    show keepPosDur (3/10) = some 0
    unfold keepPosDur
    rw [if_pos h1, h2]
    rfl
  show (gvm_width none, gvm_height none, gvm_duration (some ⟨true, some (3/10)⟩)) =
    (none, none, some 0)
  rw [h3]
  rfl

/-- C3 (amended): any width or height returned by get_video_metadata is
a positive integer of at most 65535; any duration returned comes from a
successful probe whose parsed value q is strictly positive, and equals
round-half-away-from-zero of q saturated at 65535 — the positivity test
applies to the float before rounding, so the returned duration itself is
0 whenever q lies strictly between 0 and 1/2. -/
theorem C3_metadata_positive_and_rounded (dim : Option ProbeDim)
    (dur : Option ProbeDur) :
    (∀ w, (get_video_metadata dim dur).1 = some w → 0 < w ∧ w ≤ 65535) ∧
    (∀ h, (get_video_metadata dim dur).2.1 = some h → 0 < h ∧ h ≤ 65535) ∧
    (∀ d, (get_video_metadata dim dur).2.2 = some d →
      ∃ o q, dur = some o ∧ o.statusSuccess = true ∧ o.parsed = some q ∧
        0 < q ∧ d = min (rustRoundPos q) 65535) := by
  refine ⟨?_, ?_, ?_⟩
  · intro w hw
    rw [gvm_fst] at hw
    obtain ⟨o, s, _, _, _, hp, hpos⟩ := (gvm_width_eq_some dim w).mp hw
    exact ⟨hpos, rustParseU16_le _ _ hp⟩
  · intro h hh
    rw [gvm_snd] at hh
    obtain ⟨o, s, _, _, _, hp, hpos⟩ := (gvm_height_eq_some dim h).mp hh
    exact ⟨hpos, rustParseU16_le _ _ hp⟩
  · intro d hd
    rw [gvm_thd] at hd
    exact (gvm_duration_eq_some dur d).mp hd

/-- Witness for C3: a probe announcing 1280 by 720 and 10 seconds
yields width 1280, height 720 and duration 10 with the stated bounds. -/
theorem C3_metadata_witness :
    (0 < 1280 ∧ 1280 ≤ 65535) ∧ (0 < 720 ∧ 720 ≤ 65535) ∧
    (∃ o q, (some (⟨true, some 10⟩ : ProbeDur)) = some o ∧
      o.statusSuccess = true ∧ o.parsed = some q ∧ 0 < q ∧
      10 = min (rustRoundPos q) 65535) := by
  have t := C3_metadata_positive_and_rounded (some ⟨true, ["1280", "720"]⟩)
      (some ⟨true, some 10⟩)
  have hr : rustRoundPos 10 = 10 := by
    unfold rustRoundPos
    rw [show (10:ℚ) + 1/2 = 21/2 by norm_num]
    rw [show ⌊(21:ℚ)/2⌋ = 10 from by rw [Int.floor_eq_iff]; norm_num]
    rfl
  have hdur : (get_video_metadata (some ⟨true, ["1280", "720"]⟩)
      (some ⟨true, some 10⟩)).2.2 = some 10 := by
    rw [gvm_thd]
    show keepPosDur 10 = some 10
    unfold keepPosDur
    rw [if_pos (by norm_num : (0:ℚ) < 10), hr]
    rfl
  exact ⟨t.1 1280 (by decide), t.2.1 720 (by decide), t.2.2 10 hdur⟩

/-- C4 counterexample: with the frame extraction, the image open and the
decode all succeeding but the JPEG encode failing having written nothing
(encodeOk false, empty buffer), generate_thumbnail still returns a
thumbnail — the empty byte buffer tagged thumb.jpg — instead of the
None the claim prescribes for an encode failure. -/
theorem C4_counterexample :
    (generate_thumbnail ⟨some true, true, true, true, [], false⟩
      "temp_thumb_0.jpg" []).1 = some ⟨[], "thumb.jpg"⟩ ∧
    ThumbEnv.encodeOk ⟨some true, true, true, true, [], false⟩ = false := by
  constructor
  · rfl
  · rfl

/-- C4 (amended): a failure of the external frame-extraction process
(spawn error or unsuccessful exit), of the image open or of the decode
yields no thumbnail, and the function is total, so no error crosses the
component boundary; moreover the result is always either none or the
encoder buffer as written tagged thumb.jpg — a JPEG-encode failure is
ignored, the buffer being returned even then. -/
theorem C4_thumbnail_failure_paths (env : ThumbEnv) (temp : String)
    (fs : List String) :
    ((env.ffmpegStatus.getD false = false ∨ env.openOk = false ∨
        env.decodeOk = false) →
      (generate_thumbnail env temp fs).1 = none) ∧
    ((generate_thumbnail env temp fs).1 = none ∨
      (generate_thumbnail env temp fs).1 =
        some ⟨env.encodeWritten, "thumb.jpg"⟩) := by
  constructor
  · intro hfail
    rcases hfail with hf | hf | hf
    · simp [generate_thumbnail, hf]
    · simp [generate_thumbnail, hf]
    · simp [generate_thumbnail, hf]
  · by_cases hs : env.ffmpegStatus.getD false = true
    · by_cases hod : (env.openOk && env.decodeOk) = true
      · right
        simp [generate_thumbnail, hs, hod]
      · left
        simp [generate_thumbnail, hs, hod]
    · left
      simp [generate_thumbnail, hs]

/-- Witness for C4: a spawn error yields no thumbnail, and a fully
successful run yields the written buffer. -/
theorem C4_thumbnail_witness :
    (generate_thumbnail ⟨none, false, true, true, [7], true⟩ "t.jpg" []).1 =
      none ∧
    ((generate_thumbnail ⟨some true, true, true, true, [7], true⟩ "t.jpg" []).1 =
        none ∨
      (generate_thumbnail ⟨some true, true, true, true, [7], true⟩ "t.jpg" []).1 =
        some ⟨[7], "thumb.jpg"⟩) := by
  constructor
  · exact (C4_thumbnail_failure_paths ⟨none, false, true, true, [7], true⟩
      "t.jpg" []).1 (Or.inl rfl)
  · exact (C4_thumbnail_failure_paths ⟨some true, true, true, true, [7], true⟩
      "t.jpg" []).2

/-- C5: in any assembled group, every item after the first carries no
caption, and the first item — whenever the group is nonempty — carries a
caption. -/
theorem C5_caption_on_first_item_only (rf : FPath → Option String)
    (scap : String) (files : List PathInput) :
    (∀ m ∈ (buildGroup rf scap files).drop 1, captionOf m = none) ∧
    (∀ m ∈ (buildGroup rf scap files).take 1, (captionOf m).isSome = true) := by
  have hg : goodGroup (buildGroup rf scap files) :=
    foldl_good rf scap files [] trivial
  rcases hE : buildGroup rf scap files with _ | ⟨a, t⟩
  · constructor
    · intro m hm
      simp at hm
    · intro m hm
      simp at hm
  · rw [hE] at hg
    constructor
    · intro m hm
      exact hg.2 m hm
    · intro m hm
      have hma : m = a := List.mem_singleton.mp hm
      subst hma
      exact hg.1

/-- Witness for C5: in a two-photo batch the first item carries a
caption and the second does not. -/
theorem C5_caption_witness :
    captionOf (InputMedia.photo ⟨"b", some "jpg"⟩ none) = none ∧
    (captionOf (InputMedia.photo ⟨"a", some "jpg"⟩ (some "s"))).isSome = true := by
  have t := C5_caption_on_first_item_only (fun _ => none) "s"
      [⟨⟨"a", some "jpg"⟩, "t0", ⟨none, false, false, false, [], false⟩, none, none⟩,
       ⟨⟨"b", some "jpg"⟩, "t0", ⟨none, false, false, false, [], false⟩, none, none⟩]
  exact ⟨t.1 _ (by decide), t.2 _ (by decide)⟩

/-- C6: each metadata field is present exactly when every stage for it
succeeded — spawn, exit status, line present, integer or float parse,
positivity — so every failure mode yields an absent field while the
function stays total (no error is ever returned or raised); and the
three fields are independent: every present-absent pattern is realized
by some probe outcome. -/
theorem C6_probe_failure_degrades (dim : Option ProbeDim)
    (dur : Option ProbeDur) :
    ((get_video_metadata dim dur).1.isSome = true ↔
      ∃ o s w, dim = some o ∧ o.statusSuccess = true ∧
        o.lines.head? = some s ∧ rustParseU16 (trimStr s) = some w ∧ 0 < w) ∧
    ((get_video_metadata dim dur).2.1.isSome = true ↔
      ∃ o s h, dim = some o ∧ o.statusSuccess = true ∧
        (o.lines.drop 1).head? = some s ∧
        rustParseU16 (trimStr s) = some h ∧ 0 < h) ∧
    ((get_video_metadata dim dur).2.2.isSome = true ↔
      ∃ o q, dur = some o ∧ o.statusSuccess = true ∧ o.parsed = some q ∧
        0 < q) ∧
    (∀ bw bh bd : Bool, ∃ dim2 dur2,
      (get_video_metadata dim2 dur2).1.isSome = bw ∧
      (get_video_metadata dim2 dur2).2.1.isSome = bh ∧
      (get_video_metadata dim2 dur2).2.2.isSome = bd) := by
  refine ⟨?_, ?_, ?_, ?_⟩
  · rw [gvm_fst]
    constructor
    · intro hs
      obtain ⟨w, hw⟩ := Option.isSome_iff_exists.mp hs
      obtain ⟨o, s, ho, hss, hh, hp, hpos⟩ := (gvm_width_eq_some dim w).mp hw
      exact ⟨o, s, w, ho, hss, hh, hp, hpos⟩
    · rintro ⟨o, s, w, ho, hss, hh, hp, hpos⟩
      exact Option.isSome_iff_exists.mpr
        ⟨w, (gvm_width_eq_some dim w).mpr ⟨o, s, ho, hss, hh, hp, hpos⟩⟩
  · rw [gvm_snd]
    constructor
    · intro hs
      obtain ⟨h, hh2⟩ := Option.isSome_iff_exists.mp hs
      obtain ⟨o, s, ho, hss, hl, hp, hpos⟩ := (gvm_height_eq_some dim h).mp hh2
      exact ⟨o, s, h, ho, hss, hl, hp, hpos⟩
    · rintro ⟨o, s, h, ho, hss, hl, hp, hpos⟩
      exact Option.isSome_iff_exists.mpr
        ⟨h, (gvm_height_eq_some dim h).mpr ⟨o, s, ho, hss, hl, hp, hpos⟩⟩
  · rw [gvm_thd]
    constructor
    · intro hs
      obtain ⟨d, hd⟩ := Option.isSome_iff_exists.mp hs
      obtain ⟨o, q, ho, hss, hq, hpos, _⟩ := (gvm_duration_eq_some dur d).mp hd
      exact ⟨o, q, ho, hss, hq, hpos⟩
    · rintro ⟨o, q, ho, hss, hq, hpos⟩
      exact Option.isSome_iff_exists.mpr ⟨min (rustRoundPos q) 65535,
        (gvm_duration_eq_some dur _).mpr ⟨o, q, ho, hss, hq, hpos, rfl⟩⟩
  · intro bw bh bd
    refine ⟨some ⟨true, [if bw then "720" else "x", if bh then "480" else "x"]⟩,
      some ⟨true, if bd then some 1 else none⟩, ?_, ?_, ?_⟩
    · rw [gvm_fst]
      cases bw <;> cases bh <;> decide
    · rw [gvm_snd]
      cases bw <;> cases bh <;> decide
    · rw [gvm_thd]
      cases bd
      · decide
      · exact Option.isSome_iff_exists.mpr ⟨min (rustRoundPos 1) 65535,
          (gvm_duration_eq_some _ _).mpr
            ⟨⟨true, some 1⟩, 1, rfl, rfl, rfl, by norm_num, rfl⟩⟩

/-- Witness for C6: a present width field certifies that its whole probe
chain succeeded. -/
theorem C6_probe_witness :
    ∃ o s w, (some (⟨true, ["1280", "720"]⟩ : ProbeDim)) = some o ∧
      o.statusSuccess = true ∧ o.lines.head? = some s ∧
      rustParseU16 (trimStr s) = some w ∧ 0 < w := by
  have t := C6_probe_failure_degrades (some ⟨true, ["1280", "720"]⟩) none
  exact t.1.mp (by decide)

/-- C7: every file in the file-system state generate_thumbnail returns
differs from the temporary frame file name — the temp file does not
exist on disk after the call, on the success path and on every failure
path alike, whatever each stage did. -/
theorem C7_temp_file_removed (env : ThumbEnv) (temp : String)
    (fs : List String) :
    ((generate_thumbnail env temp fs).2.all (fun f => f != temp)) = true := by
  rw [List.all_eq_true]
  intro x hx
  have hx2 : x ∈ (if env.ffmpegCreatesTemp then temp :: fs else fs).filter
      (fun f => f != temp) := hx
  exact (List.mem_filter.mp hx2).2

/-- C8: when no input file classifies as sendable media — in particular
for the empty input list — the run reports no valid media, ends, and
issues zero send calls. -/
theorem C8_no_classifiable_media_is_fatal (rf : FPath → Option String)
    (scp : Option String) (files : List PathInput) (sendOk : Bool)
    (h : ∀ inp ∈ files, imageExts.contains (extLower inp.path) = false ∧
      videoExts.contains (extLower inp.path) = false) :
    main_run rf scp files sendOk = RunOutcome.noValidMedia ∧
    reportsNoValidMedia (main_run rf scp files sendOk) = true ∧
    sendCalls (main_run rf scp files sendOk) = 0 := by
  have hb : buildGroup rf (static_cap scp) files = [] :=
    foldl_skip rf (static_cap scp) files h []
  have hm : main_run rf scp files sendOk = RunOutcome.noValidMedia := by
    show (if (buildGroup rf (static_cap scp) files).isEmpty then
        RunOutcome.noValidMedia
      else RunOutcome.sent (buildGroup rf (static_cap scp) files) sendOk) =
      RunOutcome.noValidMedia
    rw [hb]
    rfl
  refine ⟨hm, ?_, ?_⟩
  · rw [hm]
    rfl
  · rw [hm]
    rfl

/-- Witness for C8: a batch holding only a pdf file is reported fatal
with zero sends. -/
theorem C8_fatal_witness :
    main_run (fun _ => none) none
      [⟨⟨"notes", some "pdf"⟩, "t0", ⟨none, false, false, false, [], false⟩,
        none, none⟩] true = RunOutcome.noValidMedia ∧
    reportsNoValidMedia (main_run (fun _ => none) none
      [⟨⟨"notes", some "pdf"⟩, "t0", ⟨none, false, false, false, [], false⟩,
        none, none⟩] true) = true ∧
    sendCalls (main_run (fun _ => none) none
      [⟨⟨"notes", some "pdf"⟩, "t0", ⟨none, false, false, false, [], false⟩,
        none, none⟩] true) = 0 :=
  C8_no_classifiable_media_is_fatal (fun _ => none) none
    [⟨⟨"notes", some "pdf"⟩, "t0", ⟨none, false, false, false, [], false⟩,
      none, none⟩] true (by decide)

/-- C9: a path whose lowercased extension lies in neither fixed set —
including a path with no extension, whose lowercased extension is the
empty string — is skipped: the loop leaves the group unchanged, building
no request of any kind for it; consequently every item of any assembled
group is a Photo or a Video request, never a Document, Audio or
Animation. -/
theorem C9_unsupported_files_skipped (rf : FPath → Option String)
    (scap : String) (files : List PathInput) :
    (∀ (g : List InputMedia) (inp : PathInput),
      imageExts.contains (extLower inp.path) = false →
      videoExts.contains (extLower inp.path) = false →
      processFile rf scap g inp = g) ∧
    (∀ m ∈ buildGroup rf scap files, isPhotoOrVideo m = true) := by
  constructor
  · intro g inp h1 h2
    exact processFile_skip rf scap g inp h1 h2
  · intro m hm
    rcases mem_foldl_shape rf scap files [] m hm with hmem | hgood
    · exact absurd hmem (List.not_mem_nil m)
    · exact hgood.1

/-- Witness for C9: a path with no extension is skipped, and a photo
batch builds only Photo items. -/
theorem C9_skipped_witness :
    processFile (fun _ => none) "s" []
      ⟨⟨"README", none⟩, "t0", ⟨none, false, false, false, [], false⟩,
        none, none⟩ = [] ∧
    isPhotoOrVideo (InputMedia.photo ⟨"a", some "jpg"⟩ (some "s")) = true := by
  have t := C9_unsupported_files_skipped (fun _ => none) "s"
      [⟨⟨"a", some "jpg"⟩, "t0", ⟨none, false, false, false, [], false⟩,
        none, none⟩]
  exact ⟨t.1 [] _ (by decide) (by decide), t.2 _ (by decide)⟩

/-- C10: every item of any assembled group has its streaming flag set —
in particular every video request the program builds carries
supports_streaming true, whatever the probe and thumbnail outcomes. -/
theorem C10_videos_support_streaming (rf : FPath → Option String)
    (scap : String) (files : List PathInput) :
    ∀ m ∈ buildGroup rf scap files, streamOk m = true := by
  intro m hm
  rcases mem_foldl_shape rf scap files [] m hm with hmem | hgood
  · exact absurd hmem (List.not_mem_nil m)
  · exact hgood.2

/-- Witness for C10: the video request built from an mp4 file with every
probe failing still carries the streaming flag. -/
theorem C10_streaming_witness :
    streamOk (InputMedia.video ⟨"a", some "mp4"⟩ (some "s") true
      none none none none) = true := by
  have t := C10_videos_support_streaming (fun _ => none) "s"
      [⟨⟨"a", some "mp4"⟩, "t0", ⟨none, false, false, false, [], false⟩,
        none, none⟩]
  exact t _ (by decide)

end Telegoy
